import Mathlib

/-!
Verification of the AgroPlan2 crop-rotation planner against its
natural-language specification.

The embedding models, over exact rationals:
* `database.py` — `_calculate_polygon_area`, the centroid / bounding-box
  derivation inside `create_field` / `update_field`, `create_field`,
  `delete_field`, `get_field_history`, `add_crop_history`;
* `app.py` — the advisory-message construction of `get_recommendations`
  and the economics computation of `calculate_economics`.

Python floats are modelled as `ℚ`; Python's 2-decimal `round` (banker's
rounding) is modelled exactly on `ℚ`; the SQLite tables `fields` and
`crop_history` are modelled as association lists inside a `Store`.
-/

namespace AgroPlan

/-! ## Geometry: `database.py` lines 407–422, `_calculate_polygon_area` -/

/-- One term of the Gauss/shoelace loop body:
`coords[i][1] * coords[j][0] - coords[j][1] * coords[i][0]`
for a pair `p = coords[i]`, `q = coords[j]`, with `p = (lat, lng)`. -/
def cross (p q : ℚ × ℚ) : ℚ := p.2 * q.1 - q.2 * p.1

/-- The accumulated loop of `_calculate_polygon_area`:
`for i in range(n): j = (i+1) % n; area += coords[i][1]*coords[j][0] - coords[j][1]*coords[i][0]`. -/
def shoelaceLoop (coords : List (ℚ × ℚ)) : ℚ :=
  ∑ i in Finset.range coords.length,
    cross (coords.getD i (0, 0)) (coords.getD ((i + 1) % coords.length) (0, 0))

/-- Python's `round` to the nearest integer: round half to even. -/
def roundHalfEven (x : ℚ) : ℤ :=
  if x - ⌊x⌋ < 1 / 2 then ⌊x⌋
  else if 1 / 2 < x - ⌊x⌋ then ⌊x⌋ + 1
  else if 2 ∣ ⌊x⌋ then ⌊x⌋ else ⌊x⌋ + 1

/-- Python's `round(x, 2)`: round to 2 decimal places, half to even. -/
def pyRound2 (x : ℚ) : ℚ := (roundHalfEven (x * 100) : ℚ) / 100

/-- `Database._calculate_polygon_area` (`database.py` 407–422):
shoelace area of the `(lat, lng)` list treated as planar points, halved,
scaled by 11100, floored at 0.01 and rounded to 2 decimals; lists of
fewer than 3 points yield `0.0`. -/
def calculate_polygon_area (coords : List (ℚ × ℚ)) : ℚ :=
  if coords.length < 3 then 0
  else
    let area := |shoelaceLoop coords| / 2
    let area_hectares := area * 11100
    pyRound2 (max area_hectares (1 / 100))

/-- The spec's cyclic shoelace sum
`Σ (lng_i · lat_{i+1} − lng_{i+1} · lat_i)` over the cyclic sequence,
phrased by pairing each vertex with its cyclic successor. -/
def cyclicShoelace (coords : List (ℚ × ℚ)) : ℚ :=
  (List.zipWith cross coords (coords.rotate 1)).sum

/-- Consecutive-pair shoelace sum of an (open) vertex chain. -/
def chain : List (ℚ × ℚ) → ℚ
  | [] => 0
  | [_] => 0
  | p :: q :: rest => cross p q + chain (q :: rest)

/-- The cyclic shoelace sum of `l`, as the chain sum of `l` closed by
its own head. -/
def chainS (l : List (ℚ × ℚ)) : ℚ := chain (l ++ l.take 1)

/-! ## Centroid and bounding box: `database.py` 368–391 and 452–468 -/

/-- The `bounding_box` JSON object. -/
structure BBox where
  min_lat : ℚ
  max_lat : ℚ
  min_lng : ℚ
  max_lng : ℚ
deriving DecidableEq

/-- Python's `min(xs)` over a nonempty list, written as a fold. -/
def listMin (x : ℚ) (xs : List ℚ) : ℚ := xs.foldl min x

/-- Python's `max(xs)` over a nonempty list, written as a fold. -/
def listMax (x : ℚ) (xs : List ℚ) : ℚ := xs.foldl max x

/-- The centroid / bounding-box derivation inlined in `create_field`
(`database.py` 368–391) and `update_field` (452–468):
`lats = [c[0] for c in coords]; lngs = [c[1] for c in coords]`,
centroid is the arithmetic mean per axis, bounding box the min/max per
axis.  The empty list is skipped by the guard
`if coords and len(coords) > 0`, modelled as `none`. -/
def deriveCentroidAndBoundingBox (coords : List (ℚ × ℚ)) :
    Option ((ℚ × ℚ) × BBox) :=
  match coords with
  | [] => none
  | c :: cs =>
    let lats := (c :: cs).map Prod.fst
    let lngs := (c :: cs).map Prod.snd
    let center_lat := lats.sum / lats.length
    let center_lng := lngs.sum / lngs.length
    some ((center_lat, center_lng),
      ⟨listMin c.1 (cs.map Prod.fst), listMax c.1 (cs.map Prod.fst),
       listMin c.2 (cs.map Prod.snd), listMax c.2 (cs.map Prod.snd)⟩)

/-! ## Record store: `database.py` tables `fields` and `crop_history` -/

/-- The `polygon_coords` argument of `Database.create_field`, a raw
string at the Python level.  `absent` is `None` or the empty string
(falsy, the `if polygon_coords:` guard skips processing).  `invalid` is
a non-empty string whose processing raises before any derived value is
assigned: `json.loads` fails, some element is not indexable or too
short, or some `coord[0]` is non-numeric so `sum(lats)` raises.
`invalidLng lats` is a string parsing to a list whose `coord[0]` are all
numeric (the given latitudes) but with some non-numeric `coord[1]`, so
`sum(lngs)` raises one line after `center_lat = sum(lats) / len(lats)`
was assigned.  In both error cases the exception is caught and logged.
`valid coords` is a string parsing to a JSON list of `[lat, lng]`
pairs. -/
inductive PolygonInput where
  | absent : PolygonInput
  | invalid : PolygonInput
  | invalidLng : List ℚ → PolygonInput
  | valid : List (ℚ × ℚ) → PolygonInput
deriving DecidableEq

/-- A row of the `fields` table. -/
structure FieldRow where
  name : String
  area : Option ℚ
  latitude : Option ℚ
  longitude : Option ℚ
  polygon_coords : PolygonInput
  center_lat : Option ℚ
  center_lng : Option ℚ
  bounding_box : Option BBox
  soil_type : String
  climate_zone : String
deriving DecidableEq

/-- A row of the `crop_history` table. -/
structure HistoryRow where
  id : ℕ
  field_id : ℕ
  year : ℤ
  season : String
  crop : String
  yield_amount : Option ℚ
  notes : Option String
deriving DecidableEq

/-- The SQLite database: the `fields` table keyed by rowid, the
`crop_history` table, and the AUTOINCREMENT counters. -/
structure Store where
  fields : List (ℕ × FieldRow)
  history : List HistoryRow
  next_field_id : ℕ
  next_history_id : ℕ

/-- The empty database (AUTOINCREMENT ids start at 1). -/
def Store.empty : Store := ⟨[], [], 1, 1⟩

/-- `Database.create_field` (`database.py` 356–405): derives centroid,
bounding box and — when `area` is falsy (`None` or `0`) — the polygon
area, but only when the polygon input is present and parses to a
nonempty list.  A processing exception is caught; the values assigned
before the raise point persist: nothing for `.invalid`, and the already
computed `center_lat = sum(lats) / len(lats)` for `.invalidLng lats`
(the raise happens at `sum(lngs)` on the next line); `center_lng`,
`bounding_box` and the derived area are never reached on an error path.
The row is inserted unconditionally and the new rowid returned. -/
def create_field (s : Store) (name : String) (area latitude longitude : Option ℚ)
    (polygon_coords : PolygonInput) (soil_type climate_zone : String) :
    Store × ℕ :=
  let derived : Option ℚ × Option ℚ × Option BBox × Option ℚ :=
    match polygon_coords with
    | .valid coords =>
      match deriveCentroidAndBoundingBox coords with
      | some (ctr, bb) =>
        (some ctr.1, some ctr.2, some bb,
          if area = none ∨ area = some 0 then
            some (calculate_polygon_area coords)
          else area)
      | none => (none, none, none, area)
    | .invalidLng lats => (some (lats.sum / lats.length), none, none, area)
    | _ => (none, none, none, area)
  let row : FieldRow :=
    { name := name, area := derived.2.2.2, latitude := latitude,
      longitude := longitude, polygon_coords := polygon_coords,
      center_lat := derived.1, center_lng := derived.2.1,
      bounding_box := derived.2.2.1, soil_type := soil_type,
      climate_zone := climate_zone }
  let field_id := s.next_field_id
  ({ s with fields := s.fields ++ [(field_id, row)],
            next_field_id := field_id + 1 }, field_id)

/-- `Database.add_crop_history` (`database.py` 521–532). -/
def add_crop_history (s : Store) (field_id : ℕ) (year : ℤ) (season crop : String)
    (yield_amount : Option ℚ) (notes : Option String) : Store × ℕ :=
  let hid := s.next_history_id
  ({ s with
      history := s.history ++ [⟨hid, field_id, year, season, crop, yield_amount, notes⟩],
      next_history_id := hid + 1 }, hid)

/-- `Database.delete_field` (`database.py` 485–499): deletes the history
rows of the field, then the field row; the returned flag is the rowcount
of the final `DELETE FROM fields`. -/
def delete_field (s : Store) (field_id : ℕ) : Store × Bool :=
  let deleted := s.fields.any (fun p => p.1 == field_id)
  ({ s with fields := s.fields.filter (fun p => p.1 != field_id),
            history := s.history.filter (fun h => h.field_id != field_id) },
   deleted)

/-- The output order of
`SELECT * FROM crop_history WHERE field_id = ? ORDER BY year DESC, season DESC`
(`database.py` 534–544): `a` may come before `b` when `a` has the larger
year, or equal years and a `season` string that is `≥` under SQLite's
binary (codepoint) collation. -/
def histOrder (a b : HistoryRow) : Prop :=
  b.year < a.year ∨ (a.year = b.year ∧ b.season ≤ a.season)

instance : DecidableRel histOrder := fun a b => by
  unfold histOrder; infer_instance

instance : IsTotal HistoryRow histOrder where
  total a b := by
    rcases lt_trichotomy a.year b.year with h | h | h
    · exact Or.inr (Or.inl h)
    · rcases le_total a.season b.season with hs | hs
      · exact Or.inr (Or.inr ⟨h.symm, hs⟩)
      · exact Or.inl (Or.inr ⟨h, hs⟩)
    · exact Or.inl (Or.inl h)

instance : IsTrans HistoryRow histOrder where
  trans a b c hab hbc := by
    rcases hab with h1 | ⟨e1, s1⟩
    · rcases hbc with h2 | ⟨e2, _⟩
      · exact Or.inl (h2.trans h1)
      · exact Or.inl (e2 ▸ h1)
    · rcases hbc with h2 | ⟨e2, s2⟩
      · exact Or.inl (e1 ▸ h2)
      · exact Or.inr ⟨e1.trans e2, s2.trans s1⟩

/-- `Database.get_field_history` (`database.py` 534–544): the history
rows of the field, ordered by `year DESC, season DESC`. -/
def get_field_history (s : Store) (field_id : ℕ) : List HistoryRow :=
  List.insertionSort histOrder (s.history.filter (fun h => h.field_id == field_id))

/-- The season rank used by `get_field_rotation_history` and
`get_last_crop` (`database.py` 649–655, 693–699):
`CASE season WHEN 'весна' THEN 1 WHEN 'лето' THEN 2 WHEN 'осень' THEN 3 ELSE 4 END`,
and the rank the spec ascribes to `listHistoryForField`. -/
def seasonRank (s : String) : ℕ :=
  if s = "весна" then 1 else if s = "лето" then 2 else if s = "осень" then 3 else 4

/-- The ordering the claim asserts for `listHistoryForField`: year
descending, then `seasonRank` descending. -/
def claimHistOrder (a b : HistoryRow) : Prop :=
  b.year < a.year ∨ (a.year = b.year ∧ seasonRank b.season ≤ seasonRank a.season)

instance : DecidableRel claimHistOrder := fun a b => by
  unfold claimHistOrder; infer_instance

/-! ## Rotation advisor: `app.py` 496–613, `get_recommendations` -/

/-- One advisory message dict: `{"type": ..., "title": ..., "message": ...}`. -/
structure Msg where
  mtype : String
  title : String
  message : String
deriving DecidableEq

/-- The `soil_recommendations` dict (`app.py` 536–542). -/
def soil_recommendations (soil_type : String) : Option String :=
  if soil_type = "суглинок" then some "Хорошо подходит для большинства культур"
  else if soil_type = "чернозем" then some "Отличная почва для всех культур"
  else if soil_type = "песчаная" then some "Требует больше полива и удобрений"
  else if soil_type = "глинистая" then some "Нуждается в улучшении дренажа"
  else if soil_type = "торфяная" then some "Требует известкования"
  else none

/-- The advisory-message construction of the `/recommendations` POST
handler (`app.py` 514–580), as a function of the field's history, the
target crop, the field's `soil_type` and `area`, and the current month
and year:

1. repetition check over entries with `year >= currentYear - 3`
   (warning or success);
2. soil note, skipped when `soil_type` is the sentinel `'не указан'`;
3. seasonal note from the current month;
4. area note, only when `area > 0`. -/
def get_recommendations (field_history : List HistoryRow) (target_crop : String)
    (soil_type : String) (area : ℚ) (current_month : ℕ) (current_year : ℤ) :
    List Msg :=
  let recent_years := field_history.filter (fun r => decide (current_year - 3 ≤ r.year))
  let same_crop_recently := recent_years.any (fun r => r.crop == target_crop)
  let repetition : List Msg :=
    if same_crop_recently then
      [⟨"warning", "⚠️ Повторная посадка",
        "Культура '" ++ target_crop ++
          "' уже выращивалась на этом поле в последние 3 года. Рекомендуется выбрать другую культуру для севооборота."⟩]
    else
      [⟨"success", "✅ Хороший выбор",
        "Культура '" ++ target_crop ++ "' хорошо подходит для севооборота на этом поле."⟩]
  let soil : List Msg :=
    if soil_type ≠ "не указан" then
      let soil_advice := (soil_recommendations soil_type).getD
        "Убедитесь в соответствии культуры типу почвы"
      [⟨"info", "🌱 Тип почвы", "Тип почвы: " ++ soil_type ++ ". " ++ soil_advice ++ "."⟩]
    else []
  let season_advice :=
    if current_month ∈ [3, 4, 5] then "Оптимальное время для весенней посадки"
    else if current_month ∈ [6, 7, 8] then
      "Рассмотрите возможность летнего посева или подготовки к осени"
    else "Подходящее время для осенней посадки озимых культур"
  let seasonal : List Msg := [⟨"info", "📅 Сезонные рекомендации", season_advice⟩]
  let area_note : List Msg :=
    if 0 < area then
      let area_advice :=
        if area < 5 then "Малая площадь - рассмотрите интенсивные технологии"
        else if area < 20 then "Средняя площадь - подходят стандартные технологии"
        else "Большая площадь - эффективны механизированные технологии"
      [⟨"info", "📏 Площадь поля", "Площадь: " ++ toString area ++ " га. " ++ area_advice ++ "."⟩]
    else []
  repetition ++ soil ++ seasonal ++ area_note

/-- A dummy message used with `List.headD`. -/
def noMsg : Msg := ⟨"", "", ""⟩

/-! ## Economics calculator: `app.py` 626–668, `calculate_economics` -/

/-- The `prices` dict of the `/calculator` POST handler (`app.py`
633–645): 11 crops with per-hectare cost and income. -/
def pricesTable : List (String × (ℚ × ℚ)) :=
  [("пшеница", (15000, 30000)),
   ("картофель", (50000, 80000)),
   ("подсолнечник", (25000, 45000)),
   ("горох", (18000, 35000)),
   ("ячмень", (14000, 28000)),
   ("кукуруза", (30000, 60000)),
   ("овёс", (13000, 25000)),
   ("соя", (22000, 45000)),
   ("рожь", (12000, 24000)),
   ("гречиха", (16000, 32000)),
   ("лён", (20000, 40000))]

/-- The result of `calculate_economics`:
`(total_cost, total_income, profit, profitability)`. -/
structure EconResult where
  total_cost : ℚ
  total_income : ℚ
  profit : ℚ
  profitability : ℚ
deriving DecidableEq

/-- The economics computation of the `/calculator` POST handler
(`app.py` 626–652): table lookup with default `{20000, 40000}`, then
`total_cost = cost_per_ha * area`, `total_income = income_per_ha * area`,
`profit = total_income - total_cost`, and
`profitability = profit / total_cost * 100` when `total_cost > 0`, else `0`. -/
def calculate_economics (crop : String) (area : ℚ) : EconResult :=
  let crop_data := (pricesTable.lookup crop).getD (20000, 40000)
  let total_cost := crop_data.1 * area
  let total_income := crop_data.2 * area
  let profit := total_income - total_cost
  let profitability := if 0 < total_cost then profit / total_cost * 100 else 0
  ⟨total_cost, total_income, profit, profitability⟩

/-! ## Concrete fixtures used in witnesses and counterexamples -/

/-- A history row with the non-standard season `'зима'` (winter). -/
def histRowWinter : HistoryRow := ⟨1, 1, 2020, "зима", "рожь", none, none⟩

/-- A history row with season `'осень'` (autumn). -/
def histRowAutumn : HistoryRow := ⟨2, 1, 2020, "осень", "пшеница", none, none⟩

/-- A database whose field 1 has one autumn and one winter history row. -/
def storeTwoSeasons : Store := ⟨[], [histRowWinter, histRowAutumn], 1, 3⟩

/-- A minimal field row. -/
def exampleField : FieldRow :=
  ⟨"Поле", none, none, none, .absent, none, none, none, "суглинок", "умеренный"⟩

/-- A database with one field (id 1) owning one history row. -/
def exampleStore : Store :=
  ⟨[(1, exampleField)], [⟨1, 1, 2020, "весна", "пшеница", none, none⟩], 2, 2⟩

/-! ## Shoelace-sum lemmas -/

theorem cross_self (a : ℚ × ℚ) : cross a a = 0 := by
  simp [cross, mul_comm]

theorem cross_anticomm (a b : ℚ × ℚ) : cross b a = -cross a b := by
  simp only [cross]; ring

theorem chain_concat2 : ∀ (ws : List (ℚ × ℚ)) (w a : ℚ × ℚ),
    chain (ws ++ [w, a]) = chain (ws ++ [w]) + cross w a := by
  intro ws
  induction ws with
  | nil => intro w a; simp [chain]
  | cons x ws ih =>
    intro w a
    cases ws with
    | nil => simp [chain]
    | cons y ys =>
      have ihy := ih w a
      simp only [List.cons_append] at ihy ⊢
      have e1 : chain (x :: y :: (ys ++ [w, a])) =
          cross x y + chain (y :: (ys ++ [w, a])) := rfl
      have e2 : chain (x :: y :: (ys ++ [w])) =
          cross x y + chain (y :: (ys ++ [w])) := rfl
      rw [e1, e2, ihy]; ring

theorem chain_reverse : ∀ m : List (ℚ × ℚ), chain m.reverse = -chain m := by
  intro m
  induction m with
  | nil => simp [chain]
  | cons x m ih =>
    cases m with
    | nil => simp [chain]
    | cons y t =>
      have hrev : (x :: y :: t).reverse = t.reverse ++ [y, x] := by
        simp
      rw [hrev, chain_concat2]
      have h2 : t.reverse ++ [y] = (y :: t).reverse := by simp
      rw [h2, ih]
      have h3 : chain (x :: y :: t) = cross x y + chain (y :: t) := rfl
      rw [h3, cross_anticomm x y]; ring

theorem chain_eq_sum : ∀ m : List (ℚ × ℚ),
    chain m = ∑ i in Finset.range (m.length - 1),
      cross (m.getD i (0, 0)) (m.getD (i + 1) (0, 0)) := by
  intro m
  induction m with
  | nil => simp [chain]
  | cons x m ih =>
    cases m with
    | nil => simp [chain]
    | cons y t =>
      have hlen : (x :: y :: t).length - 1 = t.length + 1 := by simp
      rw [hlen, Finset.sum_range_succ']
      have h3 : chain (x :: y :: t) = cross x y + chain (y :: t) := rfl
      have hlen2 : (y :: t).length - 1 = t.length := by simp
      rw [h3, ih, hlen2]
      simp [List.getD_cons_succ, List.getD_cons_zero]
      ring

theorem shoelaceLoop_eq_chainS (l : List (ℚ × ℚ)) : shoelaceLoop l = chainS l := by
  cases l with
  | nil => simp [shoelaceLoop, chainS, chain]
  | cons p ps =>
    have htake : chainS (p :: ps) = chain ((p :: ps) ++ [p]) := rfl
    rw [htake, chain_eq_sum]
    have hlen : ((p :: ps) ++ [p]).length - 1 = (p :: ps).length := by simp
    rw [hlen, shoelaceLoop]
    apply Finset.sum_congr rfl
    intro i hi
    rw [Finset.mem_range] at hi
    congr 1
    · rw [List.getD_append _ _ _ _ hi]
    · by_cases h : i + 1 < (p :: ps).length
      · rw [Nat.mod_eq_of_lt h, List.getD_append _ _ _ _ h]
      · have he : i + 1 = (p :: ps).length := by omega
        rw [he, Nat.mod_self, List.getD_append_right _ _ _ _ (le_of_eq rfl)]
        simp

theorem zipWith_chain : ∀ (t : List (ℚ × ℚ)) (x a : ℚ × ℚ),
    (List.zipWith cross (x :: t) (t ++ [a])).sum = chain ((x :: t) ++ [a]) := by
  intro t
  induction t with
  | nil => intro x a; simp [chain]
  | cons y t ih =>
    intro x a
    simp only [List.cons_append, List.zipWith_cons_cons, List.sum_cons]
    rw [ih y a]
    simp only [List.cons_append]
    rfl

theorem cyclicShoelace_eq_chainS (l : List (ℚ × ℚ)) : cyclicShoelace l = chainS l := by
  cases l with
  | nil => simp [cyclicShoelace, chainS, chain]
  | cons p ps =>
    rw [cyclicShoelace]
    have hrot : (p :: ps).rotate 1 = ps ++ [p] := by
      rw [List.rotate_cons_succ, List.rotate_zero]
    rw [hrot, zipWith_chain]
    rfl

theorem chainS_rotate_one (l : List (ℚ × ℚ)) : chainS (l.rotate 1) = chainS l := by
  cases l with
  | nil => rfl
  | cons p ps =>
    cases ps with
    | nil => rw [List.rotate_singleton]
    | cons q qs =>
      have hrot : (p :: q :: qs).rotate 1 = (q :: qs) ++ [p] := by
        rw [List.rotate_cons_succ, List.rotate_zero]
      rw [hrot]
      show chain (((q :: qs) ++ [p]) ++ [q]) = chain ((p :: q :: qs) ++ [p])
      rw [List.append_assoc]
      show chain ((q :: qs) ++ [p, q]) = chain ((p :: q :: qs) ++ [p])
      rw [chain_concat2]
      have hr : chain ((p :: q :: qs) ++ [p]) = cross p q + chain ((q :: qs) ++ [p]) := by
        simp only [List.cons_append]; rfl
      rw [hr]; ring

theorem chainS_rotate : ∀ (k : ℕ) (l : List (ℚ × ℚ)), chainS (l.rotate k) = chainS l := by
  intro k
  induction k with
  | zero => intro l; rw [List.rotate_zero]
  | succ k ih =>
    intro l
    have h : l.rotate (k + 1) = (l.rotate 1).rotate k := by
      rw [List.rotate_rotate, Nat.add_comm]
    rw [h, ih, chainS_rotate_one]

theorem chainS_reverse_concat : ∀ (m : List (ℚ × ℚ)) (a : ℚ × ℚ),
    chainS ((m ++ [a]).reverse) = -chainS (m ++ [a]) := by
  intro m a
  have hrev : (m ++ [a]).reverse = a :: m.reverse := by simp
  cases m with
  | nil =>
    simp only [List.nil_append, List.reverse_singleton]
    have h0 : chainS [a] = 0 := by
      show chain ([a] ++ [a]) = 0
      simp [chain, cross_self]
    rw [h0]; ring
  | cons x xs =>
    rw [hrev]
    show chain ((a :: (x :: xs).reverse) ++ [a]) = -chainS ((x :: xs) ++ [a])
    have h1 : (x :: xs).reverse = xs.reverse ++ [x] := by simp
    have h2 : chainS ((x :: xs) ++ [a]) = chain (((x :: xs) ++ [a]) ++ [x]) := rfl
    rw [h2]
    have h3 : ((x :: xs) ++ [a]) ++ [x] = (x :: xs) ++ [a, x] := by
      rw [List.append_assoc]; rfl
    rw [h3, chain_concat2]
    have h4 : (a :: (x :: xs).reverse) ++ [a] = (a :: xs.reverse) ++ [x, a] := by
      rw [h1]; simp
    rw [h4, chain_concat2]
    have h5 : (a :: xs.reverse) ++ [x] = ((x :: xs) ++ [a]).reverse := by
      simp
    rw [h5, chain_reverse, cross_anticomm x a]
    ring

theorem chainS_reverse (l : List (ℚ × ℚ)) : chainS l.reverse = -chainS l := by
  cases hl : l.reverse with
  | nil =>
    have hnil : l = [] := by simpa using congrArg List.reverse hl
    subst hnil; simp [chainS, chain]
  | cons a m =>
    have hl2 : l = m.reverse ++ [a] := by
      have h := congrArg List.reverse hl
      simpa [List.reverse_cons] using h
    rw [hl2]
    have h6 : (m.reverse ++ [a]).reverse = a :: m := by simp
    rw [← h6]
    exact chainS_reverse_concat m.reverse a

theorem calculate_polygon_area_eq_chainS (coords : List (ℚ × ℚ)) :
    calculate_polygon_area coords =
      if coords.length < 3 then 0
      else pyRound2 (max (|chainS coords| / 2 * 11100) (1 / 100)) := by
  simp only [calculate_polygon_area, shoelaceLoop_eq_chainS]

/-! ## Rounding and concrete-evaluation lemmas -/

theorem roundHalfEven_intCast (n : ℤ) : roundHalfEven (n : ℚ) = n := by
  simp [roundHalfEven]

theorem pyRound2_5550 : pyRound2 5550 = 5550 := by
  have h : ((5550 : ℚ) * 100) = ((555000 : ℤ) : ℚ) := by norm_num
  rw [pyRound2, h, roundHalfEven_intCast]
  norm_num

theorem tri_loop : shoelaceLoop [(0 : ℚ × ℚ), (0, 1), (1, 0)] = 1 := by
  simp [shoelaceLoop, Finset.sum_range_succ, cross]

theorem tri_area : calculate_polygon_area [(0 : ℚ × ℚ), (0, 1), (1, 0)] = 5550 := by
  rw [calculate_polygon_area]
  norm_num [tri_loop]
  exact pyRound2_5550

/-! ## Fold-min/max lemmas -/

theorem listMin_le : ∀ (xs : List ℚ) (x : ℚ),
    listMin x xs ≤ x ∧ ∀ y ∈ xs, listMin x xs ≤ y := by
  intro xs
  induction xs with
  | nil => intro x; simp [listMin]
  | cons z zs ih =>
    intro x
    have hfold : listMin x (z :: zs) = listMin (min x z) zs := rfl
    have h := ih (min x z)
    refine ⟨?_, ?_⟩
    · rw [hfold]; exact h.1.trans (min_le_left x z)
    · intro y hy
      rcases List.mem_cons.mp hy with rfl | hy
      · rw [hfold]; exact h.1.trans (min_le_right x y)
      · rw [hfold]; exact h.2 y hy

theorem listMin_mem : ∀ (xs : List ℚ) (x : ℚ),
    listMin x xs = x ∨ listMin x xs ∈ xs := by
  intro xs
  induction xs with
  | nil => intro x; left; rfl
  | cons z zs ih =>
    intro x
    have hfold : listMin x (z :: zs) = listMin (min x z) zs := rfl
    rcases ih (min x z) with h | h
    · rcases min_choice x z with hm | hm
      · left; rw [hfold, h, hm]
      · right; rw [hfold, h, hm]; exact List.mem_cons_self z zs
    · right; rw [hfold]; exact List.mem_cons_of_mem z h

theorem listMax_le : ∀ (xs : List ℚ) (x : ℚ),
    x ≤ listMax x xs ∧ ∀ y ∈ xs, y ≤ listMax x xs := by
  intro xs
  induction xs with
  | nil => intro x; simp [listMax]
  | cons z zs ih =>
    intro x
    have hfold : listMax x (z :: zs) = listMax (max x z) zs := rfl
    have h := ih (max x z)
    refine ⟨?_, ?_⟩
    · rw [hfold]; exact (le_max_left x z).trans h.1
    · intro y hy
      rcases List.mem_cons.mp hy with rfl | hy
      · rw [hfold]; exact (le_max_right x y).trans h.1
      · rw [hfold]; exact h.2 y hy

theorem listMax_mem : ∀ (xs : List ℚ) (x : ℚ),
    listMax x xs = x ∨ listMax x xs ∈ xs := by
  intro xs
  induction xs with
  | nil => intro x; left; rfl
  | cons z zs ih =>
    intro x
    have hfold : listMax x (z :: zs) = listMax (max x z) zs := rfl
    rcases ih (max x z) with h | h
    · rcases max_choice x z with hm | hm
      · left; rw [hfold, h, hm]
      · right; rw [hfold, h, hm]; exact List.mem_cons_self z zs
    · right; rw [hfold]; exact List.mem_cons_of_mem z h

/-! ## Store lemmas -/

theorem filter_out_then_in (l : List HistoryRow) (fid : ℕ) :
    (l.filter (fun r => r.field_id != fid)).filter (fun r => r.field_id == fid) = [] := by
  induction l with
  | nil => rfl
  | cons a l ih =>
    by_cases h : a.field_id = fid
    · simp [List.filter_cons, h, ih]
    · simp [List.filter_cons, h, ih]

/-- The repetition test of `get_recommendations`, related to its
existential meaning. -/
theorem same_crop_recently_iff (h : List HistoryRow) (tc : String) (y : ℤ) :
    ((h.filter (fun r => decide (y - 3 ≤ r.year))).any (fun r => r.crop == tc)) = true ↔
      ∃ r ∈ h, r.crop = tc ∧ y - 3 ≤ r.year := by
  simp only [List.any_eq_true, List.mem_filter, beq_iff_eq, decide_eq_true_eq]
  constructor
  · rintro ⟨r, ⟨hr, hy⟩, hc⟩
    exact ⟨r, hr, hc, hy⟩
  · rintro ⟨r, hr, hc, hy⟩
    exact ⟨r, ⟨hr, hy⟩, hc⟩

/-! ## Claim theorems -/

/-- C1: for a polygon of at least 3 points, `estimateAreaHectares`
returns `round(max(|Σ (lng_i·lat_{i+1} − lng_{i+1}·lat_i)| / 2 × 11100, 0.01), 2)`
over the cyclic vertex sequence; with fewer than 3 points it returns
`0.0` without error; on the triangle `[[0,0],[0,1],[1,0]]` it returns
`5550.0`. -/
theorem C1_area_formula :
    (∀ coords : List (ℚ × ℚ), 3 ≤ coords.length →
      calculate_polygon_area coords =
        pyRound2 (max (|cyclicShoelace coords| / 2 * 11100) (1 / 100))) ∧
    (∀ coords : List (ℚ × ℚ), coords.length < 3 →
      calculate_polygon_area coords = 0) ∧
    calculate_polygon_area [(0, 0), (0, 1), (1, 0)] = 5550 := by
  refine ⟨?_, ?_, ?_⟩
  · intro coords h3
    rw [calculate_polygon_area_eq_chainS, if_neg (by omega), cyclicShoelace_eq_chainS]
  · intro coords h3
    rw [calculate_polygon_area_eq_chainS, if_pos h3]
  · exact tri_area

/-- Witness for C1: both implications applied at concrete inputs. -/
theorem C1_area_formula_witness :
    calculate_polygon_area [(0 : ℚ × ℚ), (0, 1), (1, 0)] =
      pyRound2 (max (|cyclicShoelace [(0 : ℚ × ℚ), (0, 1), (1, 0)]| / 2 * 11100) (1 / 100)) ∧
    calculate_polygon_area [(0 : ℚ × ℚ)] = 0 :=
  ⟨C1_area_formula.1 _ (by decide), C1_area_formula.2.1 _ (by decide)⟩

/-- C5: for a polygon of at least 3 points, `estimateAreaHectares` is
invariant under any cyclic rotation of the point list and under
reversal of the point list. -/
theorem C5_area_rotation_reversal (l : List (ℚ × ℚ)) (k : ℕ) (_h3 : 3 ≤ l.length) :
    calculate_polygon_area (l.rotate k) = calculate_polygon_area l ∧
    calculate_polygon_area l.reverse = calculate_polygon_area l := by
  constructor
  · rw [calculate_polygon_area_eq_chainS, calculate_polygon_area_eq_chainS,
        List.length_rotate, chainS_rotate]
  · rw [calculate_polygon_area_eq_chainS, calculate_polygon_area_eq_chainS,
        List.length_reverse, chainS_reverse, abs_neg]

/-- Witness for C5: invariance at the concrete triangle, rotation by 2. -/
theorem C5_area_rotation_reversal_witness :
    calculate_polygon_area ([(0 : ℚ × ℚ), (0, 1), (1, 0)].rotate 2) =
      calculate_polygon_area [(0 : ℚ × ℚ), (0, 1), (1, 0)] ∧
    calculate_polygon_area ([(0 : ℚ × ℚ), (0, 1), (1, 0)].reverse) =
      calculate_polygon_area [(0 : ℚ × ℚ), (0, 1), (1, 0)] :=
  ⟨(C5_area_rotation_reversal _ 2 (by decide)).1,
   (C5_area_rotation_reversal _ 2 (by decide)).2⟩

/-- C4: on a nonempty polygon the derivation returns the arithmetic-mean
centroid and the per-axis min/max bounding box; on
`[[0,0],[0,2],[2,2],[2,0]]` it yields centroid `(1,1)` and box
`{0,2,0,2}`. -/
theorem C4_centroid_and_bbox :
    (∀ (c : ℚ × ℚ) (cs : List (ℚ × ℚ)),
      ∃ ctr bb, deriveCentroidAndBoundingBox (c :: cs) = some (ctr, bb) ∧
        ctr.1 = ((c :: cs).map Prod.fst).sum / ((c :: cs).map Prod.fst).length ∧
        ctr.2 = ((c :: cs).map Prod.snd).sum / ((c :: cs).map Prod.snd).length ∧
        bb.min_lat ∈ (c :: cs).map Prod.fst ∧
        (∀ y ∈ (c :: cs).map Prod.fst, bb.min_lat ≤ y) ∧
        bb.max_lat ∈ (c :: cs).map Prod.fst ∧
        (∀ y ∈ (c :: cs).map Prod.fst, y ≤ bb.max_lat) ∧
        bb.min_lng ∈ (c :: cs).map Prod.snd ∧
        (∀ y ∈ (c :: cs).map Prod.snd, bb.min_lng ≤ y) ∧
        bb.max_lng ∈ (c :: cs).map Prod.snd ∧
        (∀ y ∈ (c :: cs).map Prod.snd, y ≤ bb.max_lng)) ∧
    deriveCentroidAndBoundingBox [(0, 0), (0, 2), (2, 2), (2, 0)] =
      some ((1, 1), ⟨0, 2, 0, 2⟩) := by
  constructor
  · intro c cs
    refine ⟨_, _, rfl, rfl, rfl, ?_, ?_, ?_, ?_, ?_, ?_, ?_, ?_⟩
    · show listMin c.1 (cs.map Prod.fst) ∈ (c :: cs).map Prod.fst
      rw [List.map_cons]
      rcases listMin_mem (cs.map Prod.fst) c.1 with h | h
      · rw [h]; exact List.mem_cons_self _ _
      · exact List.mem_cons_of_mem _ h
    · intro y hy
      rw [List.map_cons] at hy
      rcases List.mem_cons.mp hy with rfl | hy
      · exact (listMin_le (cs.map Prod.fst) c.1).1
      · exact (listMin_le (cs.map Prod.fst) c.1).2 y hy
    · show listMax c.1 (cs.map Prod.fst) ∈ (c :: cs).map Prod.fst
      rw [List.map_cons]
      rcases listMax_mem (cs.map Prod.fst) c.1 with h | h
      · rw [h]; exact List.mem_cons_self _ _
      · exact List.mem_cons_of_mem _ h
    · intro y hy
      rw [List.map_cons] at hy
      rcases List.mem_cons.mp hy with rfl | hy
      · exact (listMax_le (cs.map Prod.fst) c.1).1
      · exact (listMax_le (cs.map Prod.fst) c.1).2 y hy
    · show listMin c.2 (cs.map Prod.snd) ∈ (c :: cs).map Prod.snd
      rw [List.map_cons]
      rcases listMin_mem (cs.map Prod.snd) c.2 with h | h
      · rw [h]; exact List.mem_cons_self _ _
      · exact List.mem_cons_of_mem _ h
    · intro y hy
      rw [List.map_cons] at hy
      rcases List.mem_cons.mp hy with rfl | hy
      · exact (listMin_le (cs.map Prod.snd) c.2).1
      · exact (listMin_le (cs.map Prod.snd) c.2).2 y hy
    · show listMax c.2 (cs.map Prod.snd) ∈ (c :: cs).map Prod.snd
      rw [List.map_cons]
      rcases listMax_mem (cs.map Prod.snd) c.2 with h | h
      · rw [h]; exact List.mem_cons_self _ _
      · exact List.mem_cons_of_mem _ h
    · intro y hy
      rw [List.map_cons] at hy
      rcases List.mem_cons.mp hy with rfl | hy
      · exact (listMax_le (cs.map Prod.snd) c.2).1
      · exact (listMax_le (cs.map Prod.snd) c.2).2 y hy
  · norm_num [deriveCentroidAndBoundingBox, listMin, listMax, List.foldl]

/-- Witness for C4: the bounding-box lower bound applied at a concrete
vertex of the concrete quadrilateral. -/
theorem C4_centroid_and_bbox_witness :
    (⟨0, 2, 0, 2⟩ : BBox).min_lat ≤ 2 := by
  obtain ⟨ctr, bb, heq, _, _, _, hl1, _, _, _, _, _, _⟩ :=
    C4_centroid_and_bbox.1 (0, 0) [(0, 2), (2, 2), (2, 0)]
  have hpair := Option.some.inj (heq.symm.trans C4_centroid_and_bbox.2)
  have hbb : bb = ⟨0, 2, 0, 2⟩ := congrArg Prod.snd hpair
  have h2 := hl1 2 (by norm_num)
  rw [hbb] at h2
  exact h2

/-- C7: the economics estimate uses an 11-entry table with fallback
`{20000, 40000}`; `total_cost`, `total_income`, `profit` and
`profitability` follow the stated formulas; `estimate("wheat", 10)` with
table entry `{15000, 30000}` yields `(150000, 300000, 150000, 100.0)`;
any unknown crop with positive area yields profitability `100.0`. -/
theorem C7_economics :
    pricesTable.length = 11 ∧
    calculate_economics "пшеница" 10 = ⟨150000, 300000, 150000, 100⟩ ∧
    (∀ crop a, (calculate_economics crop a).total_cost =
        ((pricesTable.lookup crop).getD (20000, 40000)).1 * a ∧
      (calculate_economics crop a).total_income =
        ((pricesTable.lookup crop).getD (20000, 40000)).2 * a ∧
      (calculate_economics crop a).profit =
        (calculate_economics crop a).total_income - (calculate_economics crop a).total_cost) ∧
    (∀ crop a, 0 < (calculate_economics crop a).total_cost →
      (calculate_economics crop a).profitability =
        (calculate_economics crop a).profit / (calculate_economics crop a).total_cost * 100) ∧
    (∀ crop a, ¬ 0 < (calculate_economics crop a).total_cost →
      (calculate_economics crop a).profitability = 0) ∧
    (∀ crop a, pricesTable.lookup crop = none → 0 < a →
      (calculate_economics crop a).profitability = 100) := by
  refine ⟨rfl, ?_, ?_, ?_, ?_, ?_⟩
  · have hl : pricesTable.lookup "пшеница" = some (15000, 30000) := rfl
    simp only [calculate_economics, hl, Option.getD_some]
    norm_num
  · intro crop a
    refine ⟨rfl, rfl, rfl⟩
  · intro crop a hpos
    simp only [calculate_economics] at hpos ⊢
    rw [if_pos hpos]
  · intro crop a hneg
    simp only [calculate_economics] at hneg ⊢
    rw [if_neg hneg]
  · intro crop a hnone ha
    simp only [calculate_economics, hnone, Option.getD_none]
    have hpos : (0 : ℚ) < 20000 * a := by positivity
    rw [if_pos hpos]
    have hne : (20000 : ℚ) * a ≠ 0 := ne_of_gt hpos
    field_simp
    ring

/-- Witness for C7: the fallback and zero-cost cases at concrete inputs. -/
theorem C7_economics_witness :
    (calculate_economics "абв" 1).profitability = 100 ∧
    (calculate_economics "пшеница" 0).profitability = 0 ∧
    (calculate_economics "пшеница" 10).profitability =
      (calculate_economics "пшеница" 10).profit /
        (calculate_economics "пшеница" 10).total_cost * 100 := by
  have hl : pricesTable.lookup "пшеница" = some (15000, 30000) := rfl
  refine ⟨C7_economics.2.2.2.2.2 "абв" 1 rfl (by norm_num), ?_, ?_⟩
  · refine C7_economics.2.2.2.2.1 "пшеница" 0 ?_
    simp only [calculate_economics, hl, Option.getD_some]
    norm_num
  · refine C7_economics.2.2.2.1 "пшеница" 10 ?_
    simp only [calculate_economics, hl, Option.getD_some]
    norm_num

/-- C9: when `deleteField` succeeds, every history entry owned by the
field is deleted in the same operation, so `listHistoryForField`
afterwards returns the empty list. -/
theorem C9_delete_field_cascades (s : Store) (fid : ℕ)
    (_hdel : (delete_field s fid).2 = true) :
    get_field_history (delete_field s fid).1 fid = [] := by
  have hhist : (delete_field s fid).1.history =
      s.history.filter (fun r => r.field_id != fid) := rfl
  rw [get_field_history, hhist, filter_out_then_in]
  rfl

/-- Witness for C9: a store with one field owning one history row. -/
theorem C9_delete_field_cascades_witness :
    (delete_field exampleStore 1).2 = true ∧
    get_field_history (delete_field exampleStore 1).1 1 = [] :=
  ⟨by decide, C9_delete_field_cascades exampleStore 1 (by decide)⟩

/-- C10 counterexample: on the polygon string `'[[1, "a"], [2, 3], [4, 5]]'`
the latitudes `[1, 2, 4]` are all numeric, so `center_lat = 7/3` is
assigned before `sum(lngs)` raises; the caught-and-inserted row stores a
non-`NULL` centroid latitude, refuting "centroid ... left null". -/
theorem C10_counterexample_centroid_not_null :
    (create_field Store.empty "Поле" none none none (.invalidLng [1, 2, 4])
        "суглинок" "умеренный").1.fields =
      [(1, ⟨"Поле", none, none, none, .invalidLng [1, 2, 4],
        some (7 / 3), none, none, "суглинок", "умеренный"⟩)] ∧
    (some ((7 : ℚ) / 3) : Option ℚ) ≠ none := by
  constructor
  · show [] ++ [(1, (⟨"Поле", none, none, none, .invalidLng [1, 2, 4],
        some (([1, 2, 4] : List ℚ).sum / (([1, 2, 4] : List ℚ).length : ℚ)),
        none, none, "суглинок", "умеренный"⟩ : FieldRow))] = _
    norm_num
  · simp

/-- C10 (amended): a `create_field` call whose polygon string parses or
processes with an error still inserts the row without raising, stores
the raw polygon input as given and returns the new row's id; `center_lng`,
`bounding_box` and the derived area are left `NULL`, and `center_lat` is
left `NULL` when the error strikes before its assignment but holds the
mean of the parsed latitudes when `sum(lngs)` raises after it. -/
theorem C10_amended_error_caught_row_inserted (s : Store) (name : String)
    (lat lng : Option ℚ) (soil zone : String) :
    ((create_field s name none lat lng .invalid soil zone).2 = s.next_field_id ∧
      (create_field s name none lat lng .invalid soil zone).1.fields =
        s.fields ++ [(s.next_field_id,
          ⟨name, none, lat, lng, .invalid, none, none, none, soil, zone⟩)]) ∧
    (∀ lats : List ℚ,
      (create_field s name none lat lng (.invalidLng lats) soil zone).2 = s.next_field_id ∧
      (create_field s name none lat lng (.invalidLng lats) soil zone).1.fields =
        s.fields ++ [(s.next_field_id,
          ⟨name, none, lat, lng, .invalidLng lats,
           some (lats.sum / lats.length), none, none, soil, zone⟩)]) := by
  refine ⟨⟨rfl, rfl⟩, ?_⟩
  intro lats
  exact ⟨rfl, rfl⟩

/-- C8 counterexample: on the empty polygon sequence the store-level
operation does not fail: it silently inserts the field (with `NULL`
geometry) and returns the fresh id 1. -/
theorem C8_counterexample_empty_polygon_succeeds :
    (create_field Store.empty "Поле" none none none (.valid []) "суглинок" "умеренный").2 = 1 ∧
    (create_field Store.empty "Поле" none none none (.valid []) "суглинок" "умеренный").1.fields =
      [(1, ⟨"Поле", none, none, none, .valid [], none, none, none, "суглинок", "умеренный"⟩)] := by
  constructor <;> rfl

/-- C8 (amended): on an empty polygon sequence `create_field` does not
fail with `InvalidGeometry`; it inserts the field with centroid,
bounding box and derived values left `NULL` and returns the new id. -/
theorem C8_amended_empty_polygon_inserted (s : Store) (name : String)
    (area lat lng : Option ℚ) (soil zone : String) :
    (create_field s name area lat lng (.valid []) soil zone).2 = s.next_field_id ∧
    (create_field s name area lat lng (.valid []) soil zone).1.fields =
      s.fields ++ [(s.next_field_id,
        ⟨name, area, lat, lng, .valid [], none, none, none, soil, zone⟩)] := by
  constructor <;> rfl

/-- C2 counterexample: with the sentinel soil type `'не указан'` (and
area 0) the advisory list has 2 entries, not 3 or 4. -/
theorem C2_counterexample_sentinel_soil :
    ¬ ((get_recommendations [] "пшеница" "не указан" 0 4 2024).length = 3 ∨
       (get_recommendations [] "пшеница" "не указан" 0 4 2024).length = 4) := by
  have hlen : (get_recommendations [] "пшеница" "не указан" 0 4 2024).length = 2 := rfl
  rw [hlen]
  decide

/-- C2 (amended): the advisory list always consists of the repetition
message, then the soil note (present exactly when the soil type is not
the sentinel `'не указан'`), then the seasonal note, then the area note
(present exactly when `area > 0`); hence its length is 3 or 4 when the
soil type is known and 2 or 3 when it is the sentinel. -/
theorem C2_amended_message_shape (h : List HistoryRow) (tc st : String) (a : ℚ)
    (m : ℕ) (y : ℤ) :
    (get_recommendations h tc st a m y).map Msg.title =
      (if (h.filter (fun r => decide (y - 3 ≤ r.year))).any (fun r => r.crop == tc)
        then ["⚠️ Повторная посадка"] else ["✅ Хороший выбор"]) ++
      (if st ≠ "не указан" then ["🌱 Тип почвы"] else []) ++
      ["📅 Сезонные рекомендации"] ++
      (if 0 < a then ["📏 Площадь поля"] else []) ∧
    (get_recommendations h tc st a m y).length =
      (if st = "не указан" then 2 else 3) + (if 0 < a then 1 else 0) := by
  constructor
  · by_cases h2 : st = "не указан" <;> by_cases h3 : 0 < a <;>
      simp [get_recommendations, apply_ite (List.map Msg.title), h2, h3]
  · by_cases h2 : st = "не указан" <;> by_cases h3 : 0 < a <;>
      simp [get_recommendations, apply_ite List.length, h2, h3]

/-- C3 counterexample: with an 'other' season string `'зима'` the code's
`ORDER BY season DESC` (string order) puts the autumn row first, while
the claimed season ranking would put the `'зима'` row first, so the
output is not sorted by the claimed rank order. -/
theorem C3_counterexample_other_season :
    ¬ List.Sorted claimHistOrder (get_field_history storeTwoSeasons 1) := by
  have hlist : get_field_history storeTwoSeasons 1 = [histRowAutumn, histRowWinter] := by
    simp only [get_field_history, storeTwoSeasons, List.filter, List.insertionSort,
      List.orderedInsert]
    norm_num [histOrder, histRowWinter, histRowAutumn]
    decide
  rw [hlist]
  intro hs
  have h2 := List.rel_of_sorted_cons hs histRowWinter (by simp)
  norm_num [claimHistOrder, histRowWinter, histRowAutumn, seasonRank] at h2
  revert h2
  decide

/-- C3 (amended): `listHistoryForField` returns a permutation of the
field's history rows sorted by year descending and then by the raw
season string descending under codepoint order; on the three known
seasons `'весна' < 'лето' < 'осень'` the string order agrees with the
rank spring < summer < autumn, but other season strings sort by their
string value, not above autumn. -/
theorem C3_amended_history_order (s : Store) (fid : ℕ) :
    (get_field_history s fid).Perm (s.history.filter (fun r => r.field_id == fid)) ∧
    List.Sorted histOrder (get_field_history s fid) ∧
    (∀ s1 s2 : String,
      s1 ∈ ["весна", "лето", "осень"] → s2 ∈ ["весна", "лето", "осень"] →
      (s1 < s2 ↔ seasonRank s1 < seasonRank s2)) := by
  refine ⟨List.perm_insertionSort _ _, List.sorted_insertionSort _ _, ?_⟩
  intro s1 s2 h1 h2
  fin_cases h1 <;> fin_cases h2 <;> (rw [String.lt_iff_toList_lt]; decide)

/-- Witness for C3 (amended): the known-season agreement applied at
spring and summer. -/
theorem C3_amended_history_order_witness :
    ("весна" < "лето" ↔ seasonRank "весна" < seasonRank "лето") :=
  (C3_amended_history_order Store.empty 0).2.2 "весна" "лето" (by simp) (by simp)

/-- C6: the first advisory message is a `warning` exactly when some
history entry has the target crop and a year at least `currentYear − 3`,
and a `success` otherwise; in particular a crop grown one year ago gives
a warning and a never-grown crop gives a success. -/
theorem C6_repetition_check :
    (∀ (h : List HistoryRow) (tc st : String) (a : ℚ) (m : ℕ) (y : ℤ),
      (((get_recommendations h tc st a m y).headD noMsg).mtype = "warning" ↔
        ∃ r ∈ h, r.crop = tc ∧ y - 3 ≤ r.year) ∧
      (((get_recommendations h tc st a m y).headD noMsg).mtype = "success" ↔
        ¬ ∃ r ∈ h, r.crop = tc ∧ y - 3 ≤ r.year)) ∧
    ((get_recommendations [⟨1, 1, 2023, "весна", "пшеница", none, none⟩]
        "пшеница" "суглинок" 10 5 2024).headD noMsg).mtype = "warning" ∧
    ((get_recommendations [⟨1, 1, 2023, "весна", "пшеница", none, none⟩]
        "ячмень" "суглинок" 10 5 2024).headD noMsg).mtype = "success" := by
  refine ⟨?_, rfl, rfl⟩
  intro h tc st a m y
  by_cases hc : ((h.filter (fun r => decide (y - 3 ≤ r.year))).any
      (fun r => r.crop == tc)) = true
  · have hm : ((get_recommendations h tc st a m y).headD noMsg).mtype = "warning" := by
      simp only [get_recommendations, hc]
      simp
    constructor
    · exact iff_of_true hm ((same_crop_recently_iff h tc y).mp hc)
    · refine iff_of_false ?_ (not_not_intro ((same_crop_recently_iff h tc y).mp hc))
      intro hh
      exact absurd (hm.symm.trans hh) (by decide)
  · have hm : ((get_recommendations h tc st a m y).headD noMsg).mtype = "success" := by
      rw [Bool.not_eq_true] at hc
      simp only [get_recommendations, hc]
      simp
    constructor
    · refine iff_of_false ?_ (fun hex => hc ((same_crop_recently_iff h tc y).mpr hex))
      intro hh
      exact absurd (hm.symm.trans hh) (by decide)
    · exact iff_of_true hm (fun hex => hc ((same_crop_recently_iff h tc y).mpr hex))

/-- Witness for C6: the equivalence applied at a concrete empty history. -/
theorem C6_repetition_check_witness :
    ((get_recommendations [] "рожь" "суглинок" 1 4 2024).headD noMsg).mtype = "success" :=
  ((C6_repetition_check.1 [] "рожь" "суглинок" 1 4 2024).2).mpr (by simp)

end AgroPlan
